import Mathlib

/-
Shallow embedding of certipy (src/certipy/certipy.py), a local
certificate-authority manager built on a key/cert store.

Modelling conventions:
 - The crypto backend (pyOpenSSL) is external.  Key generation is modelled
   as drawing a fresh identifier from a counter in the ambient world; PEM
   encode/decode are modelled as the identity on structured file data.
 - Machine state ("World") holds the Certipy instance fields (certs,
   store_dir, record_file, serial), the filesystem (directories that exist
   and a map from path to file data), the console log (print output), and
   the list of certificate objects produced by Certipy.sign, in order.
 - Python exceptions that the source does not catch are modelled with
   Except; exceptions the source catches and prints are modelled by the
   caught branch (a log entry).  File modes (chmod) and the digest
   parameter have no observable effect in the source and are omitted.
-/

/-- Uncaught Python exception kinds reachable in the embedded fragment. -/
inductive PyErr where
  | attributeError
  | typeError
  | cryptoError
deriving DecidableEq

/-- An X509 distinguished name: the attribute assignments made on a
pyOpenSSL X509Name object, in order (e.g. [("CN", name)]). -/
def DName : Type := List (String × String)

instance : DecidableEq DName := by
  unfold DName
  infer_instance

/-- The namedtuple KeyCertPair(name, dir_name, key_file, cert_file, ca_file). -/
structure KeyCertPair where
  name : String
  dir_name : String
  key_file : String
  cert_file : String
  ca_file : String
deriving DecidableEq

/-- The five positional fields, in namedtuple order, as serialized by
json.dumps into the record file. -/
def toFields (r : KeyCertPair) : List String :=
  [r.name, r.dir_name, r.key_file, r.cert_file, r.ca_file]

/-- KeyCertPair(*info): succeeds exactly on a five-element list; anything
else raises TypeError in the source. -/
def ofFields : List String → Option KeyCertPair
  | [a, b, c, d, e] => some ⟨a, b, c, d, e⟩
  | _ => none

/-- One X509 extension as assembled by crypto.X509Extension.  The subject=
and issuer= keyword certificates only feed the key-identifier derivation,
so we record the key material they contribute. -/
structure ExtensionData where
  typeName : String
  critical : Bool
  value : String
  subjectKeyOf : Option Nat
  issuerKeyOf : Option Nat
deriving DecidableEq

/-- A certificate object (pyOpenSSL X509) as built by Certipy.sign. -/
structure X509 where
  serial : Nat
  notBefore : Int
  notAfter : Int
  issuer : DName
  subject : DName
  pubkey : Nat
  extensions : List ExtensionData
  signedBy : Option Nat
deriving DecidableEq

/-- A certificate request (pyOpenSSL X509Req) as built by create_request;
the request is signed with its own key, which has no further observable
effect here. -/
structure X509Req where
  subject : DName
  pubkey : Nat
deriving DecidableEq

/-- An entry of the extensions list passed to Certipy.sign: either a
literal X509Extension or a Python callable evaluated on the in-progress
certificate (used for subject/authority key identifiers). -/
inductive ExtInput where
  | lit (d : ExtensionData)
  | fn (f : X509 → ExtensionData)

/-- Duck-typed issuer certificate argument of Certipy.sign: create_ca
passes the request itself, create_signed_pair passes a loaded X509. -/
inductive SubjSrc where
  | ofReq (r : X509Req)
  | ofCert (c : X509)

/-- issuer_cert.get_subject() in Certipy.sign. -/
def SubjSrc.get_subject : SubjSrc → DName
  | .ofReq r => r.subject
  | .ofCert c => c.subject

/-- Association-list lookup, first match wins (Python dict access). -/
def lookupKey {α : Type} : List (String × α) → String → Option α
  | [], _ => none
  | p :: ps, k => if p.1 == k then some p.2 else lookupKey ps k

/-- Python dict assignment d[k] = v: replace in place if the key exists,
else append. -/
def upsert {α : Type} : List (String × α) → String → α → List (String × α)
  | [], k, v => [(k, v)]
  | p :: ps, k, v => if p.1 == k then (k, v) :: ps else p :: upsert ps k v

/-- Python dict deletion del d[k] (the caller checks presence). -/
def removeKey {α : Type} : List (String × α) → String → List (String × α)
  | [], _ => []
  | p :: ps, k => if p.1 == k then ps else p :: removeKey ps k

/-- Split a character list at '/' separators. -/
def splitSlashAux : List Char → List Char → List (List Char)
  | [], acc => [acc.reverse]
  | c :: cs, acc => if c = '/' then acc.reverse :: splitSlashAux cs [] else splitSlashAux cs (c :: acc)

/-- Path components of a '/'-separated path. -/
def pathParts (p : String) : List String :=
  (splitSlashAux p.toList []).map (fun l => String.mk l)

/-- Join path components with '/'. -/
def joinParts : List String → String
  | [] => ""
  | [p] => p
  | p :: ps => p ++ "/" ++ joinParts ps

/-- The directory containing a path (all components but the last). -/
def parentDir (p : String) : String :=
  joinParts (pathParts p).dropLast

/-- Every ancestor directory of a path, shortest first; os.makedirs with
exist_ok=True creates all of them. -/
def ancestors (p : String) : List String :=
  (List.range (pathParts p).length).map (fun i => joinParts ((pathParts p).take (i + 1)))

/-- The serialized record file {"serial": ..., "cert_info": {...}}; each
record is its five positional fields. -/
structure StoreData where
  serial : Nat
  cert_info : List (String × List String)
deriving DecidableEq

/-- Contents of one file on disk.  PEM serialization is modelled as the
identity, so a file holds a private key, a certificate, or the JSON store. -/
inductive FileData where
  | key (k : Nat)
  | cert (c : X509)
  | store (d : StoreData)
deriving DecidableEq

/-- The filesystem: directories that exist, and file contents by path. -/
structure Fs where
  dirs : List String
  files : List (String × FileData)
deriving DecidableEq

/-- Read a file (open for reading); none models FileNotFoundError. -/
def fsRead (fs : Fs) (p : String) : Option FileData :=
  lookupKey fs.files p

/-- Write a file, replacing previous content. -/
def fsWrite (fs : Fs) (p : String) (d : FileData) : Fs :=
  { fs with files := upsert fs.files p d }

/-- os.makedirs(d, exist_ok=True): create the directory and every ancestor. -/
def makedirs (fs : Fs) (d : String) : Fs :=
  { fs with dirs := fs.dirs ++ ancestors d }

/-- Opening a path for writing succeeds iff its parent directory exists;
otherwise Python raises FileNotFoundError. -/
def canWrite (fs : Fs) (p : String) : Bool :=
  fs.dirs.contains (parentDir p)

/-- The mutable fields of a Certipy instance (__init__). -/
structure Certipy where
  certs : List (String × KeyCertPair)
  store_dir : String
  record_file : String
  serial : Nat
deriving DecidableEq

/-- Certipy.__init__(store_dir, record_file). -/
def Certipy.init (store_dir record_file : String) : Certipy :=
  { certs := [], store_dir := store_dir, record_file := record_file, serial := 0 }

/-- The whole machine state: the Certipy instance, a counter supplying
fresh key material, the filesystem, printed output, and the certificates
produced by Certipy.sign in creation order. -/
structure World where
  cy : Certipy
  keyCtr : Nat
  fs : Fs
  log : List String
  signed : List X509
deriving DecidableEq

/-- "{store_dir}/{record_file}", the record file path used by
store_save and store_load. -/
def Certipy.file_path (cy : Certipy) : String :=
  cy.store_dir ++ "/" ++ cy.record_file

/-- Certipy.store_save: write {serial, cert_info} to the record file; a
FileNotFoundError is caught and reported. -/
def Certipy.store_save (w : World) : World :=
  let fp := w.cy.file_path
  if canWrite w.fs fp then
    { w with fs := (fsWrite w.fs fp
        (FileData.store ⟨w.cy.serial, w.cy.certs.map (fun p => (p.1, toFields p.2))⟩)) }
  else
    { w with log := w.log ++ ["Could not open file " ++ fp ++ " for writing."] }

/-- The record-loading loop of store_load: each entry is rebuilt with
KeyCertPair(*info) and assigned into the certs dict; a TypeError (wrong
arity) aborts the loop, leaving the partial state (the Bool reports it). -/
def loadRecords (certs : List (String × KeyCertPair)) :
    List (String × List String) → List (String × KeyCertPair) × Bool
  | [] => (certs, false)
  | (n, flds) :: rest =>
    match ofFields flds with
    | some r => loadRecords (upsert certs n r) rest
    | none => (certs, true)

/-- Certipy.store_load: read the record file; on FileNotFoundError create
the store directory; on malformed content report and keep the partial
state (serial is assigned before the record loop). -/
def Certipy.store_load (w : World) : World :=
  let fp := w.cy.file_path
  match fsRead w.fs fp with
  | some (FileData.store d) =>
    let res := loadRecords w.cy.certs d.cert_info
    { w with cy := { w.cy with serial := d.serial, certs := res.1 },
             log := if res.2 then w.log ++ ["Problems loading store: TypeError"] else w.log }
  | some _ =>
    { w with log := w.log ++ ["Problems loading store: ValueError"] }
  | none =>
    { w with fs := makedirs w.fs w.cy.store_dir,
             log := w.log ++ ["No store file at " ++ fp ++ ". Creating a new one."] }

/-- Certipy.store_get: dict lookup; on KeyError print and return None. -/
def Certipy.store_get (name : String) (w : World) : Option KeyCertPair × World :=
  match lookupKey w.cy.certs name with
  | some r => (some r, w)
  | none => (none, { w with log := w.log ++ ["No certificates found with name " ++ name] })

/-- Certipy.key_cert_pair_for_name: derive default paths for every
argument passed as the empty string (Python falsiness of ""). -/
def Certipy.key_cert_pair_for_name (cy : Certipy)
    (name dir_name key_file cert_file ca_file : String) : KeyCertPair :=
  let dir_name := if dir_name == "" then cy.store_dir ++ "/" ++ name else dir_name
  let key_file := if key_file == "" then dir_name ++ "/" ++ name ++ ".key" else key_file
  let cert_file := if cert_file == "" then dir_name ++ "/" ++ name ++ ".crt" else cert_file
  let ca_file := if ca_file == "" then cert_file else ca_file
  ⟨name, dir_name, key_file, cert_file, ca_file⟩

/-- Certipy.store_add: certs[pair.name] = pair. -/
def Certipy.store_add (r : KeyCertPair) (w : World) : World :=
  { w with cy := { w.cy with certs := upsert w.cy.certs r.name r } }

/-- Certipy.store_remove: del certs[name]; a KeyError is caught and
printed. -/
def Certipy.store_remove (name : String) (w : World) : World :=
  match lookupKey w.cy.certs name with
  | some _ => { w with cy := { w.cy with certs := removeKey w.cy.certs name } }
  | none => { w with log := w.log ++ ["No certificates found with name " ++ name] }

/-- Certipy.create_key_pair: key generation is external; modelled as a
fresh key identifier from the world's counter. -/
def Certipy.create_key_pair (w : World) : Nat × World :=
  (w.keyCtr, { w with keyCtr := w.keyCtr + 1 })

/-- Certipy.create_request: a request binding the subject attributes to
the key's public part (the self-signature on the request has no further
observable effect). -/
def Certipy.create_request (pkey : Nat) (name : DName) : X509Req :=
  { subject := name, pubkey := pkey }

/-- Evaluate one entry of the extensions list: a callable is applied to
the in-progress certificate. -/
def evalExt (cert : X509) (e : ExtInput) : ExtensionData :=
  match e with
  | .lit d => d
  | .fn f => f cert

/-- One iteration of the extension loop in Certipy.sign:
cert.add_extensions([ext]) after evaluating a callable on cert. -/
def addExt (cert : X509) (e : ExtInput) : X509 :=
  { cert with extensions := cert.extensions ++ [evalExt cert e] }

/-- The extension descriptors produced by the loop of Certipy.sign, in
order; callables see the certificate as extended so far, still unsigned. -/
def applyInOrder (cert : X509) : List ExtInput → List ExtensionData
  | [] => []
  | e :: es => evalExt cert e :: applyInOrder (addExt cert e) es

/-- Certipy.sign: build the certificate from the request and issuer,
stamp the current serial, increment the store serial, add the extensions
in order (callables evaluated on the constructed, unsigned certificate),
and finally sign with the issuer key. -/
def Certipy.sign (req : X509Req) (issuer_cert : SubjSrc) (issuer_key : Nat)
    (validity_period : Int × Int) (extensions : List ExtInput) (w : World) : X509 × World :=
  let cert : X509 :=
    { serial := w.cy.serial, notBefore := validity_period.1, notAfter := validity_period.2,
      issuer := issuer_cert.get_subject, subject := req.subject, pubkey := req.pubkey,
      extensions := [], signedBy := none }
  let w1 : World := { w with cy := { w.cy with serial := w.cy.serial + 1 } }
  let cert1 := extensions.foldl addExt cert
  let cert2 := { cert1 with signedBy := some issuer_key }
  (cert2, { w1 with signed := w1.signed ++ [cert2] })

/-- Certipy.write_key_cert_pair: derive paths, create the directory,
write the key then the certificate, register the record; a
FileNotFoundError on either open is caught and reported, and nothing is
registered. -/
def Certipy.write_key_cert_pair (name : String) (key : Nat) (cert : X509)
    (signing_cert : String) (w : World) : Option KeyCertPair × World :=
  let cert_info := w.cy.key_cert_pair_for_name name "" "" "" signing_cert
  let fs1 := makedirs w.fs cert_info.dir_name
  if canWrite fs1 cert_info.key_file then
    let fs2 := fsWrite fs1 cert_info.key_file (FileData.key key)
    if canWrite fs2 cert_info.cert_file then
      let fs3 := fsWrite fs2 cert_info.cert_file (FileData.cert cert)
      (some cert_info, Certipy.store_add cert_info { w with fs := fs3 })
    else
      (none, { w with fs := fs2, log := w.log ++ ["Could not write file: " ++ cert_info.cert_file] })
  else
    (none, { w with fs := fs1, log := w.log ++ ["Could not write file: " ++ cert_info.key_file] })

/-- Certipy.load_key_cert_pair: look the record up (store_get returning
None makes the subsequent attribute access raise AttributeError,
uncaught), read the key and certificate files (FileNotFoundError is
caught, printed, and the function falls through returning None), decode
them (a non-key/non-cert file raises crypto.Error, uncaught). -/
def Certipy.load_key_cert_pair (name : String) (w : World) :
    Except PyErr (Option (Nat × X509)) × World :=
  match Certipy.store_get name w with
  | (none, w1) => (Except.error PyErr.attributeError, w1)
  | (some cert_info, w1) =>
    match fsRead w1.fs cert_info.key_file with
    | none => (Except.ok none, { w1 with log := w1.log ++ ["Could not load file: " ++ cert_info.key_file] })
    | some (FileData.key k) =>
      match fsRead w1.fs cert_info.cert_file with
      | none => (Except.ok none, { w1 with log := w1.log ++ ["Could not load file: " ++ cert_info.cert_file] })
      | some (FileData.cert c) => (Except.ok (some (k, c)), w1)
      | some _ => (Except.error PyErr.cryptoError, w1)
    | some _ => (Except.error PyErr.cryptoError, w1)

/-- The CA extension profile assembled by create_ca, with the two
key-identifier callables and the optional subjectAltName. -/
def caExtensions (alt_names : String) : List ExtInput :=
  [ExtInput.lit ⟨"basicConstraints", true, "CA:true, pathlen:0", none, none⟩,
   ExtInput.lit ⟨"keyUsage", true, "keyCertSign, cRLSign", none, none⟩,
   ExtInput.lit ⟨"extendedKeyUsage", true, "serverAuth, clientAuth", none, none⟩,
   ExtInput.fn (fun cert => ⟨"subjectKeyIdentifier", false, "hash", some cert.pubkey, none⟩),
   ExtInput.fn (fun cert => ⟨"authorityKeyIdentifier", false, "keyid:always", none, some cert.pubkey⟩)]
  ++ (if alt_names == "" then [] else [ExtInput.lit ⟨"subjectAltName", false, alt_names, none, none⟩])

/-- The leaf extension profile assembled by create_signed_pair. -/
def leafExtensions (alt_names : String) : List ExtInput :=
  [ExtInput.lit ⟨"extendedKeyUsage", true, "serverAuth, clientAuth", none, none⟩]
  ++ (if alt_names == "" then [] else [ExtInput.lit ⟨"subjectAltName", false, alt_names, none, none⟩])

/-- Certipy.create_ca: self-signed root issuance (the issuer certificate
argument of sign is the request itself). -/
def Certipy.create_ca (name alt_names : String) (years : Nat) (w : World) :
    Option KeyCertPair × World :=
  let kp := Certipy.create_key_pair w
  let req := Certipy.create_request kp.1 [("CN", name)]
  let sp := Certipy.sign req (SubjSrc.ofReq req) kp.1
      (0, 60 * 60 * 24 * 365 * (years : Int)) (caExtensions alt_names) kp.2
  let wp := Certipy.write_key_cert_pair name kp.1 sp.1 "" sp.2
  Certipy.store_get name wp.2

/-- Certipy.create_signed_pair: leaf issuance against a named CA.  The
key pair and request are generated before the CA lookup; unpacking a
None result of load_key_cert_pair raises TypeError; ca_info.ca_file on a
None store_get result raises AttributeError. -/
def Certipy.create_signed_pair (name ca_name alt_names : String) (years : Nat) (w : World) :
    Except PyErr (Option KeyCertPair) × World :=
  let kp := Certipy.create_key_pair w
  let req := Certipy.create_request kp.1 [("CN", name)]
  match Certipy.load_key_cert_pair ca_name kp.2 with
  | (Except.error e, w1) => (Except.error e, w1)
  | (Except.ok none, w1) => (Except.error PyErr.typeError, w1)
  | (Except.ok (some (cakey, cacert)), w1) =>
    let sp := Certipy.sign req (SubjSrc.ofCert cacert) cakey
        (0, 60 * 60 * 24 * 365 * (years : Int)) (leafExtensions alt_names) w1
    match Certipy.store_get ca_name sp.2 with
    | (none, w2) => (Except.error PyErr.attributeError, w2)
    | (some ca_info, w2) =>
      let wp := Certipy.write_key_cert_pair name kp.1 sp.1 ca_info.ca_file w2
      let sg := Certipy.store_get name wp.2
      (Except.ok sg.1, sg.2)

/-- One caller-level operation on a Certipy instance. -/
inductive Op where
  | createCA (name alt_names : String) (years : Nat)
  | createLeaf (name ca_name alt_names : String) (years : Nat)
  | removeRec (name : String)

/-- Run one operation (remove never raises; create_ca never raises). -/
def runOp (op : Op) (w : World) : Except PyErr (Option KeyCertPair) × World :=
  match op with
  | Op.createCA n a y =>
    let p := Certipy.create_ca n a y w
    (Except.ok p.1, p.2)
  | Op.createLeaf n ca a y => Certipy.create_signed_pair n ca a y w
  | Op.removeRec n => (Except.ok none, Certipy.store_remove n w)

/-- An issuance succeeded when it returned a record; removals always
proceed. -/
def opSuccess : Op → Except PyErr (Option KeyCertPair) → Bool
  | Op.removeRec _, _ => true
  | _, Except.ok (some _) => true
  | _, _ => false

/-- Whether the operation is an issuance (CA or leaf). -/
def isIssuance : Op → Bool
  | Op.removeRec _ => false
  | _ => true

/-- Number of issuance operations in a trace. -/
def issuanceCount : List Op → Nat
  | [] => 0
  | op :: rest => (if isIssuance op then 1 else 0) + issuanceCount rest

/-- The serials of the certificates a step added to the signed heap. -/
def newSerials (w w2 : World) : List Nat :=
  (w2.signed.drop w.signed.length).map X509.serial

/-- Run a trace of operations; when every operation succeeds, return the
serial numbers of the certificates signed by each, in order. -/
def traceSerials (w : World) : List Op → Option (List Nat)
  | [] => some []
  | op :: rest =>
    let r := runOp op w
    if opSuccess op r.1 then
      (traceSerials r.2 rest).map (fun ss => newSerials w r.2 ++ ss)
    else
      none

instance : DecidableEq (Except PyErr (Option KeyCertPair)) := fun a b =>
  match a, b with
  | Except.error e, Except.error f =>
    if h : e = f then isTrue (by rw [h]) else isFalse (by intro hc; cases hc; exact h rfl)
  | Except.ok x, Except.ok y =>
    if h : x = y then isTrue (by rw [h]) else isFalse (by intro hc; cases hc; exact h rfl)
  | Except.error _, Except.ok _ => isFalse (by intro hc; cases hc)
  | Except.ok _, Except.error _ => isFalse (by intro hc; cases hc)

/-- A fresh world over an empty filesystem, as a concrete test input. -/
def W0 : World := ⟨Certipy.init "out" "store.json", 0, ⟨[], []⟩, [], []⟩

/-- Concrete operation trace: create a CA, issue a leaf against it,
then remove the CA record. -/
def opsW0 : List Op :=
  [Op.createCA "root" "" 5, Op.createLeaf "svc" "root" "" 5, Op.removeRec "root"]

/-- A world whose record-file directory does not exist. -/
def W7 : World := ⟨Certipy.init "nodir" "store.json", 0, ⟨[], []⟩, [], []⟩

/-- A concrete store record, as a test input. -/
def R9 : KeyCertPair := ⟨"a", "out/a", "out/a/a.key", "out/a/a.crt", "out/a/a.crt"⟩

/-- A world holding one record, as a concrete test input. -/
def W9 : World := ⟨⟨[("a", R9)], "out", "store.json", 3⟩, 0, ⟨["out"], []⟩, [], []⟩

/-- A CA certificate on disk, as a test input. -/
def certC5 : X509 := ⟨99, 0, 0, [("CN", "ca")], [("CN", "ca")], 7, [], some 7⟩

/-- A CA store record whose ca_file is the empty string (as can arise
from a loaded record file), as a test input. -/
def recC5 : KeyCertPair := ⟨"ca", "d", "kf", "cf", ""⟩

/-- A world holding that CA record with its key and certificate on disk. -/
def W5 : World :=
  ⟨⟨[("ca", recC5)], "out", "store.json", 0⟩, 0,
   ⟨[], [("kf", FileData.key 7), ("cf", FileData.cert certC5)]⟩, [], []⟩

/-- A normal CA world: W0 after creating CA "root", as a test input. -/
def W1 : World := (Certipy.create_ca "root" "" 5 W0).2

/-- The record that create_ca "root" registers in W1. -/
def rootRec : KeyCertPair :=
  ⟨"root", "out/root", "out/root/root.key", "out/root/root.crt", "out/root/root.crt"⟩

/-- The record that create_signed_pair "svc" "root" registers. -/
def svcRec : KeyCertPair :=
  ⟨"svc", "out/svc", "out/svc/svc.key", "out/svc/svc.crt", "out/root/root.crt"⟩

/-- A list never equals itself extended by at least one element. -/
theorem append_cons_ne {α : Type} (l : List α) (a : α) (r : List α) : l ++ a :: r ≠ l := by
  intro h
  have hl := congrArg List.length h
  simp at hl

@[simp] theorem lookupKey_upsert_self {α : Type} (l : List (String × α)) (k : String) (v : α) :
    lookupKey (upsert l k v) k = some v := by
  induction l with
  | nil => simp [upsert, lookupKey]
  | cons p ps ih =>
    by_cases h : p.1 == k
    · simp [upsert, lookupKey, h]
    · simp [upsert, lookupKey, h, ih]

theorem lookupKey_upsert_ne {α : Type} (l : List (String × α)) (k k' : String) (v : α)
    (h : k' ≠ k) : lookupKey (upsert l k v) k' = lookupKey l k' := by
  induction l with
  | nil => simp [upsert, lookupKey, h, Ne.symm h]
  | cons p ps ih =>
    by_cases hp : p.1 == k
    · have hpk : p.1 = k := by simpa using hp
      simp [upsert, lookupKey, hp, hpk, h, Ne.symm h]
    · by_cases hp' : p.1 == k'
      · simp [upsert, lookupKey, hp, hp']
      · simp [upsert, lookupKey, hp, hp', ih]

theorem upsert_of_lookup_none {α : Type} (l : List (String × α)) (k : String) (v : α)
    (h : lookupKey l k = none) : upsert l k v = l ++ [(k, v)] := by
  induction l with
  | nil => simp [upsert]
  | cons p ps ih =>
    by_cases hp : p.1 == k
    · simp [lookupKey, hp] at h
    · simp [lookupKey, hp] at h
      simp [upsert, hp, ih h]

/-- C8: with no explicit paths, key_cert_pair_for_name derives
dir_name = store_dir/name, key_file = dir_name/name.key,
cert_file = dir_name/name.crt and ca_file = cert_file; in particular
name "web1" in store directory "out" yields out/web1, out/web1/web1.key,
out/web1/web1.crt, with ca_file equal to cert_file. -/
theorem default_path_derivation :
    (∀ (cy : Certipy) (name : String),
      Certipy.key_cert_pair_for_name cy name "" "" "" "" =
        ⟨name, cy.store_dir ++ "/" ++ name,
          cy.store_dir ++ "/" ++ name ++ "/" ++ name ++ ".key",
          cy.store_dir ++ "/" ++ name ++ "/" ++ name ++ ".crt",
          cy.store_dir ++ "/" ++ name ++ "/" ++ name ++ ".crt"⟩) ∧
    Certipy.key_cert_pair_for_name (Certipy.init "out" "store.json") "web1" "" "" "" "" =
      ⟨"web1", "out/web1", "out/web1/web1.key", "out/web1/web1.crt", "out/web1/web1.crt"⟩ :=
  ⟨fun _ _ => rfl, by decide⟩

/-- C7: when the record-file path cannot be opened for writing,
store_save only reports the failure: the store fields, the filesystem
and everything else are left unchanged, and no exception escapes. -/
theorem save_unwritable_reports_and_preserves (w : World)
    (h : canWrite w.fs w.cy.file_path = false) :
    Certipy.store_save w =
      { w with log := w.log ++ ["Could not open file " ++ w.cy.file_path ++ " for writing."] } := by
  unfold Certipy.store_save
  simp [h]

/-- Witness for C7 at a concrete world whose store directory is missing. -/
theorem save_unwritable_witness :
    canWrite W7.fs W7.cy.file_path = false ∧
    Certipy.store_save W7 =
      { W7 with log := W7.log ++ ["Could not open file " ++ W7.cy.file_path ++ " for writing."] } :=
  ⟨by decide, save_unwritable_reports_and_preserves W7 (by decide)⟩

/-- C9: removing a name that is not in the store reports NotFound on the
log and leaves the store (serial and whole record mapping) and the rest
of the world unchanged. -/
theorem remove_absent_reports_notfound (w : World) (name : String)
    (h : lookupKey w.cy.certs name = none) :
    Certipy.store_remove name w =
      { w with log := w.log ++ ["No certificates found with name " ++ name] } := by
  unfold Certipy.store_remove
  simp [h]

/-- Witness for C9 at a concrete store holding one unrelated record. -/
theorem remove_absent_witness :
    lookupKey W9.cy.certs "b" = none ∧
    Certipy.store_remove "b" W9 =
      { W9 with log := W9.log ++ ["No certificates found with name b"] } :=
  ⟨by decide, remove_absent_reports_notfound W9 "b" (by decide)⟩

theorem foldl_addExt_serial (l : List ExtInput) (c : X509) :
    (l.foldl addExt c).serial = c.serial := by
  induction l generalizing c with
  | nil => rfl
  | cons e es ih => simp [List.foldl_cons, ih, addExt]

theorem foldl_addExt_issuer (l : List ExtInput) (c : X509) :
    (l.foldl addExt c).issuer = c.issuer := by
  induction l generalizing c with
  | nil => rfl
  | cons e es ih => simp [List.foldl_cons, ih, addExt]

theorem foldl_addExt_subject (l : List ExtInput) (c : X509) :
    (l.foldl addExt c).subject = c.subject := by
  induction l generalizing c with
  | nil => rfl
  | cons e es ih => simp [List.foldl_cons, ih, addExt]

theorem foldl_addExt_pubkey (l : List ExtInput) (c : X509) :
    (l.foldl addExt c).pubkey = c.pubkey := by
  induction l generalizing c with
  | nil => rfl
  | cons e es ih => simp [List.foldl_cons, ih, addExt]

theorem foldl_addExt_signedBy (l : List ExtInput) (c : X509) :
    (l.foldl addExt c).signedBy = c.signedBy := by
  induction l generalizing c with
  | nil => rfl
  | cons e es ih => simp [List.foldl_cons, ih, addExt]

theorem foldl_addExt_extensions (l : List ExtInput) (c : X509) :
    (l.foldl addExt c).extensions = c.extensions ++ applyInOrder c l := by
  induction l generalizing c with
  | nil => simp [applyInOrder]
  | cons e es ih =>
    simp [List.foldl_cons, applyInOrder, ih (addExt c e)]
    simp [addExt]

/-- C2: the signing primitive stamps the store's current serial on the
certificate and increments the store serial by one; the certificate's
issuer subject is the issuer argument's subject, its subject and public
key come from the request; the extensions are applied in the order
given, each callable evaluated on the certificate as constructed so far,
which is unsigned at every such point; the issuer-key signature is
applied last. -/
theorem sign_builds_certificate (w : World) (req : X509Req) (issuer : SubjSrc)
    (issuer_key : Nat) (nb na : Int) (exts : List ExtInput) :
    (Certipy.sign req issuer issuer_key (nb, na) exts w).1.serial = w.cy.serial ∧
    (Certipy.sign req issuer issuer_key (nb, na) exts w).2.cy.serial = w.cy.serial + 1 ∧
    (Certipy.sign req issuer issuer_key (nb, na) exts w).1.issuer = issuer.get_subject ∧
    (Certipy.sign req issuer issuer_key (nb, na) exts w).1.subject = req.subject ∧
    (Certipy.sign req issuer issuer_key (nb, na) exts w).1.pubkey = req.pubkey ∧
    (Certipy.sign req issuer issuer_key (nb, na) exts w).1.extensions =
      applyInOrder ⟨w.cy.serial, nb, na, issuer.get_subject, req.subject, req.pubkey, [], none⟩ exts ∧
    (∀ k : Nat, ((exts.take k).foldl addExt
      (⟨w.cy.serial, nb, na, issuer.get_subject, req.subject, req.pubkey, [], none⟩ : X509)).signedBy
        = none) ∧
    (Certipy.sign req issuer issuer_key (nb, na) exts w).1.signedBy = some issuer_key := by
  refine ⟨?_, rfl, ?_, ?_, ?_, ?_, ?_, rfl⟩
  · simpa [Certipy.sign] using foldl_addExt_serial exts _
  · simpa [Certipy.sign] using foldl_addExt_issuer exts _
  · simpa [Certipy.sign] using foldl_addExt_subject exts _
  · simpa [Certipy.sign] using foldl_addExt_pubkey exts _
  · simpa [Certipy.sign] using foldl_addExt_extensions exts _
  · intro k
    simpa using foldl_addExt_signedBy (exts.take k) _

theorem lookupKey_append_of_none {α : Type} (l1 l2 : List (String × α)) (k : String)
    (h : lookupKey l1 k = none) : lookupKey (l1 ++ l2) k = lookupKey l2 k := by
  induction l1 with
  | nil => rfl
  | cons p ps ih =>
    by_cases hp : p.1 == k
    · simp [lookupKey, hp] at h
    · simp [lookupKey, hp] at h ⊢
      exact ih h

theorem loadRecords_lookup_ne (entries : List (String × List String))
    (certs : List (String × KeyCertPair)) (n : String)
    (h : ∀ p ∈ entries, p.1 ≠ n) :
    lookupKey (loadRecords certs entries).1 n = lookupKey certs n := by
  induction entries generalizing certs with
  | nil => rfl
  | cons e rest ih =>
    obtain ⟨k, flds⟩ := e
    have hk : k ≠ n := h (k, flds) (by simp)
    cases hof : ofFields flds with
    | some r =>
      rw [loadRecords, hof]
      rw [ih (upsert certs k r) (fun p hp => h p (by simp [hp]))]
      exact lookupKey_upsert_ne certs k n r (Ne.symm hk)
    | none => rw [loadRecords, hof]

/-- C10: store_load merges the file's entries into the existing mapping;
an in-memory record whose name does not occur in the record file is
still present, unchanged, after load. -/
theorem load_preserves_unrelated_records (w : World) (n : String) (r : KeyCertPair)
    (h1 : lookupKey w.cy.certs n = some r)
    (h2 : ∀ (d : StoreData), fsRead w.fs w.cy.file_path = some (FileData.store d) →
          ∀ flds : List String, (n, flds) ∉ d.cert_info) :
    lookupKey (Certipy.store_load w).cy.certs n = some r := by
  simp only [Certipy.store_load]
  cases hr : fsRead w.fs w.cy.file_path with
  | none => simpa using h1
  | some fd =>
    cases fd with
    | key k => simpa using h1
    | cert c => simpa using h1
    | store d =>
      have hke : ∀ p ∈ d.cert_info, p.1 ≠ n := by
        intro p hp hpn
        exact h2 d hr p.2 (by rw [← hpn]; simpa [Prod.mk.eta] using hp)
      simpa using (loadRecords_lookup_ne d.cert_info w.cy.certs n hke).trans h1

theorem loadRecords_roundtrip (l : List (String × KeyCertPair)) :
    ∀ acc : List (String × KeyCertPair),
    (l.map Prod.fst).Nodup →
    (∀ k ∈ l.map Prod.fst, lookupKey acc k = none) →
    loadRecords acc (l.map (fun p => (p.1, toFields p.2))) = (acc ++ l, false) := by
  induction l with
  | nil => intro acc _ _; simp [loadRecords]
  | cons p rest ih =>
    intro acc hnd hacc
    obtain ⟨k, r⟩ := p
    have hk : lookupKey acc k = none := hacc k (by simp)
    have hnotin : k ∉ rest.map Prod.fst := by
      simp only [List.map_cons, List.nodup_cons] at hnd
      exact hnd.1
    have hnd' : (rest.map Prod.fst).Nodup := by
      simp only [List.map_cons, List.nodup_cons] at hnd
      exact hnd.2
    have hacc' : ∀ k' ∈ rest.map Prod.fst, lookupKey (acc ++ [(k, r)]) k' = none := by
      intro k' hk'
      rw [lookupKey_append_of_none _ _ _ (hacc k' (by simp [hk']))]
      have hne : ¬(k = k') := fun h => hnotin (h ▸ hk')
      simp [lookupKey, hne]
    rw [List.map_cons, loadRecords]
    rw [show ofFields (toFields r) = some r from rfl]
    show loadRecords (upsert acc k r) (List.map (fun p => (p.1, toFields p.2)) rest) =
      (acc ++ (k, r) :: rest, false)
    rw [upsert_of_lookup_none acc k r hk]
    rw [ih (acc ++ [(k, r)]) hnd' hacc']
    simp

/-- C4: saving a store (with its dict invariant: one entry per name) and
loading the resulting record file into a fresh store over the same
directories reproduces the serial and the identical record mapping. -/
theorem store_save_load_roundtrip (w : World)
    (hnd : (w.cy.certs.map Prod.fst).Nodup)
    (hw : canWrite w.fs w.cy.file_path = true) :
    (Certipy.store_load
        ⟨Certipy.init w.cy.store_dir w.cy.record_file, 0, (Certipy.store_save w).fs, [], []⟩).cy.serial
      = w.cy.serial ∧
    (Certipy.store_load
        ⟨Certipy.init w.cy.store_dir w.cy.record_file, 0, (Certipy.store_save w).fs, [], []⟩).cy.certs
      = w.cy.certs := by
  have hfs : (Certipy.store_save w).fs =
      fsWrite w.fs w.cy.file_path
        (FileData.store ⟨w.cy.serial, w.cy.certs.map (fun p => (p.1, toFields p.2))⟩) := by
    simp [Certipy.store_save, hw]
  have hread : fsRead (Certipy.store_save w).fs
      (Certipy.file_path (Certipy.init w.cy.store_dir w.cy.record_file)) =
      some (FileData.store ⟨w.cy.serial, w.cy.certs.map (fun p => (p.1, toFields p.2))⟩) := by
    rw [hfs]
    exact lookupKey_upsert_self _ _ _
  have hload : loadRecords (Certipy.init w.cy.store_dir w.cy.record_file).certs
      (w.cy.certs.map (fun p => (p.1, toFields p.2))) = (w.cy.certs, false) := by
    have := loadRecords_roundtrip w.cy.certs [] hnd (fun k _ => rfl)
    simpa [Certipy.init] using this
  constructor
  · simp only [Certipy.store_load]
    rw [hread]
  · simp only [Certipy.store_load]
    rw [hread]
    simp [hload]

/-- Concrete records and world for the round-trip witness. -/
def R4b : KeyCertPair := ⟨"b", "out/b", "out/b/b.key", "out/b/b.crt", "out/a/a.crt"⟩

/-- A world with two records and an existing store directory. -/
def W4 : World := ⟨⟨[("a", R9), ("b", R4b)], "out", "store.json", 5⟩, 0, ⟨["out"], []⟩, [], []⟩

/-- Witness for C4 at a concrete two-record store. -/
theorem store_save_load_roundtrip_witness :
    (W4.cy.certs.map Prod.fst).Nodup ∧
    canWrite W4.fs W4.cy.file_path = true ∧
    ((Certipy.store_load
        ⟨Certipy.init W4.cy.store_dir W4.cy.record_file, 0, (Certipy.store_save W4).fs, [], []⟩).cy.serial
      = W4.cy.serial ∧
     (Certipy.store_load
        ⟨Certipy.init W4.cy.store_dir W4.cy.record_file, 0, (Certipy.store_save W4).fs, [], []⟩).cy.certs
      = W4.cy.certs) :=
  ⟨by decide, by decide, store_save_load_roundtrip W4 (by decide) (by decide)⟩

/-- A world with one in-memory record and a record file naming a
different record, as a test input. -/
def W10 : World :=
  ⟨⟨[("keep", R9)], "out", "store.json", 3⟩, 0,
   ⟨["out"], [("out/store.json",
      FileData.store ⟨7, [("other", ["other", "d", "k", "c", "a"])]⟩)]⟩, [], []⟩

/-- Witness for C10: the in-memory record "keep" survives a load that
brings in an unrelated record. -/
theorem load_preserves_witness :
    lookupKey W10.cy.certs "keep" = some R9 ∧
    lookupKey (Certipy.store_load W10).cy.certs "keep" = some R9 :=
  ⟨by decide,
   load_preserves_unrelated_records W10 "keep" R9 (by decide)
     (by
       intro d hd flds hmem
       have h3 : FileData.store (⟨7, [("other", ["other", "d", "k", "c", "a"])]⟩ : StoreData) =
           FileData.store d :=
         Option.some.inj ((show fsRead W10.fs W10.cy.file_path =
             some (FileData.store ⟨7, [("other", ["other", "d", "k", "c", "a"])]⟩) from rfl).symm.trans hd)
       cases h3
       simp only [List.mem_singleton, Prod.mk.injEq] at hmem
       exact absurd hmem.1 (by decide))⟩

theorem store_get_fst (n : String) (w : World) :
    (Certipy.store_get n w).1 = lookupKey w.cy.certs n := by
  unfold Certipy.store_get
  cases lookupKey w.cy.certs n <;> rfl

theorem store_get_cy (n : String) (w : World) : (Certipy.store_get n w).2.cy = w.cy := by
  unfold Certipy.store_get
  cases lookupKey w.cy.certs n <;> rfl

theorem store_get_signed (n : String) (w : World) :
    (Certipy.store_get n w).2.signed = w.signed := by
  unfold Certipy.store_get
  cases lookupKey w.cy.certs n <;> rfl

theorem store_get_log_extends (n : String) (w : World) :
    (Certipy.store_get n w).2.log = w.log ∨
    (Certipy.store_get n w).2.log = w.log ++ ["No certificates found with name " ++ n] := by
  unfold Certipy.store_get
  cases lookupKey w.cy.certs n
  · exact Or.inr rfl
  · exact Or.inl rfl

theorem store_get_of_some (n : String) (w : World) (r : KeyCertPair)
    (h : lookupKey w.cy.certs n = some r) : Certipy.store_get n w = (some r, w) := by
  unfold Certipy.store_get
  rw [h]

theorem store_get_of_none (n : String) (w : World)
    (h : lookupKey w.cy.certs n = none) :
    Certipy.store_get n w =
      (none, { w with log := w.log ++ ["No certificates found with name " ++ n] }) := by
  unfold Certipy.store_get
  rw [h]

theorem wkcp_signed (n : String) (k : Nat) (c : X509) (s : String) (w : World) :
    (Certipy.write_key_cert_pair n k c s w).2.signed = w.signed := by
  unfold Certipy.write_key_cert_pair
  dsimp only
  split
  · split <;> rfl
  · rfl

theorem wkcp_serial (n : String) (k : Nat) (c : X509) (s : String) (w : World) :
    (Certipy.write_key_cert_pair n k c s w).2.cy.serial = w.cy.serial := by
  unfold Certipy.write_key_cert_pair
  dsimp only
  split
  · split <;> rfl
  · rfl

theorem wkcp_keyCtr (n : String) (k : Nat) (c : X509) (s : String) (w : World) :
    (Certipy.write_key_cert_pair n k c s w).2.keyCtr = w.keyCtr := by
  unfold Certipy.write_key_cert_pair
  dsimp only
  split
  · split <;> rfl
  · rfl

theorem wkcp_of_some (n : String) (k : Nat) (c : X509) (s : String) (w : World)
    (r : KeyCertPair) (h : (Certipy.write_key_cert_pair n k c s w).1 = some r) :
    r = w.cy.key_cert_pair_for_name n "" "" "" s ∧
    (Certipy.write_key_cert_pair n k c s w).2.cy.certs = upsert w.cy.certs r.name r ∧
    (Certipy.write_key_cert_pair n k c s w).2.log = w.log := by
  unfold Certipy.write_key_cert_pair at h ⊢
  dsimp only at h ⊢
  split at h
  next hc1 =>
    split at h
    next hc2 =>
      obtain rfl : w.cy.key_cert_pair_for_name n "" "" "" s = r := by simpa using h
      refine ⟨rfl, ?_, ?_⟩ <;> simp [hc1, hc2, Certipy.store_add]
    next hc2 => simp at h
  next hc1 => simp at h

theorem wkcp_of_none (n : String) (k : Nat) (c : X509) (s : String) (w : World)
    (h : (Certipy.write_key_cert_pair n k c s w).1 = none) :
    ∃ m, (Certipy.write_key_cert_pair n k c s w).2.log = w.log ++ [m] ∧
      (Certipy.write_key_cert_pair n k c s w).2.cy.certs = w.cy.certs := by
  unfold Certipy.write_key_cert_pair at h ⊢
  dsimp only at h ⊢
  split at h
  next hc1 =>
    split at h
    next hc2 => simp at h
    next hc2 =>
      exact ⟨"Could not write file: " ++ (w.cy.key_cert_pair_for_name n "" "" "" s).cert_file,
        by simp [hc1, hc2], by simp [hc1, hc2]⟩
  next hc1 =>
    exact ⟨"Could not write file: " ++ (w.cy.key_cert_pair_for_name n "" "" "" s).key_file,
      by simp [hc1], by simp [hc1]⟩

theorem store_get_some_world (n : String) (w : World) (r : KeyCertPair) (w1 : World)
    (h : Certipy.store_get n w = (some r, w1)) : w1 = w := by
  unfold Certipy.store_get at h
  cases hlk : lookupKey w.cy.certs n <;> rw [hlk] at h
  · simp at h
  · exact ((Prod.mk.injEq _ _ _ _).mp h).2.symm

theorem lkcp_cy (n : String) (w : World) :
    (Certipy.load_key_cert_pair n w).2.cy = w.cy := by
  have hcy := store_get_cy n w
  unfold Certipy.load_key_cert_pair
  split
  next w1 heq =>
    rw [heq] at hcy
    exact hcy
  next cert_info w1 heq =>
    rw [heq] at hcy
    split
    all_goals try exact hcy
    split <;> exact hcy

theorem lkcp_signed (n : String) (w : World) :
    (Certipy.load_key_cert_pair n w).2.signed = w.signed := by
  have hcy := store_get_signed n w
  unfold Certipy.load_key_cert_pair
  split
  next w1 heq =>
    rw [heq] at hcy
    exact hcy
  next cert_info w1 heq =>
    rw [heq] at hcy
    split
    all_goals try exact hcy
    split <;> exact hcy

theorem lkcp_of_ok_some (n : String) (w : World) (k : Nat) (c : X509)
    (h : (Certipy.load_key_cert_pair n w).1 = Except.ok (some (k, c))) :
    (Certipy.load_key_cert_pair n w).2 = w := by
  unfold Certipy.load_key_cert_pair at h ⊢
  split at h
  · simp at h
  · rename_i cert_info w1 heq
    have hw1 : w1 = w := store_get_some_world n w cert_info w1 heq
    split at h
    · simp at h
    · split at h
      · simp at h
      · exact hw1
      · simp at h
    · simp at h

theorem sign_snd_signed (req : X509Req) (i : SubjSrc) (ik : Nat) (v : Int × Int)
    (e : List ExtInput) (w : World) :
    (Certipy.sign req i ik v e w).2.signed = w.signed ++ [(Certipy.sign req i ik v e w).1] := rfl

theorem sign_snd_serial (req : X509Req) (i : SubjSrc) (ik : Nat) (v : Int × Int)
    (e : List ExtInput) (w : World) :
    (Certipy.sign req i ik v e w).2.cy.serial = w.cy.serial + 1 := rfl

theorem sign_snd_certs (req : X509Req) (i : SubjSrc) (ik : Nat) (v : Int × Int)
    (e : List ExtInput) (w : World) :
    (Certipy.sign req i ik v e w).2.cy.certs = w.cy.certs := rfl

theorem sign_snd_log (req : X509Req) (i : SubjSrc) (ik : Nat) (v : Int × Int)
    (e : List ExtInput) (w : World) :
    (Certipy.sign req i ik v e w).2.log = w.log := rfl

theorem sign_fst_serial (req : X509Req) (i : SubjSrc) (ik : Nat) (v : Int × Int)
    (e : List ExtInput) (w : World) :
    (Certipy.sign req i ik v e w).1.serial = w.cy.serial := by
  unfold Certipy.sign
  dsimp only
  rw [foldl_addExt_serial]

theorem sign_fst_issuer (req : X509Req) (i : SubjSrc) (ik : Nat) (v : Int × Int)
    (e : List ExtInput) (w : World) :
    (Certipy.sign req i ik v e w).1.issuer = i.get_subject := by
  unfold Certipy.sign
  dsimp only
  rw [foldl_addExt_issuer]

theorem sign_fst_subject (req : X509Req) (i : SubjSrc) (ik : Nat) (v : Int × Int)
    (e : List ExtInput) (w : World) :
    (Certipy.sign req i ik v e w).1.subject = req.subject := by
  unfold Certipy.sign
  dsimp only
  rw [foldl_addExt_subject]

theorem sign_fst_extensions (req : X509Req) (i : SubjSrc) (ik : Nat) (v : Int × Int)
    (e : List ExtInput) (w : World) :
    (Certipy.sign req i ik v e w).1.extensions =
      applyInOrder ⟨w.cy.serial, v.1, v.2, i.get_subject, req.subject, req.pubkey, [], none⟩ e := by
  unfold Certipy.sign
  dsimp only
  rw [foldl_addExt_extensions]
  rfl

theorem create_ca_analysis (name alt_names : String) (years : Nat) (w : World) :
    ∃ c : X509,
      (Certipy.create_ca name alt_names years w).2.signed = w.signed ++ [c] ∧
      c.serial = w.cy.serial ∧
      (Certipy.create_ca name alt_names years w).2.cy.serial = w.cy.serial + 1 ∧
      c.issuer = c.subject ∧
      ExtensionData.mk "basicConstraints" true "CA:true, pathlen:0" none none ∈ c.extensions ∧
      ExtensionData.mk "keyUsage" true "keyCertSign, cRLSign" none none ∈ c.extensions := by
  unfold Certipy.create_ca
  dsimp only [Certipy.create_key_pair, Certipy.create_request]
  refine ⟨(Certipy.sign ⟨[("CN", name)], w.keyCtr⟩
      (SubjSrc.ofReq ⟨[("CN", name)], w.keyCtr⟩) w.keyCtr
      (0, 60 * 60 * 24 * 365 * (years : Int)) (caExtensions alt_names)
      { w with keyCtr := w.keyCtr + 1 }).1, ?_, ?_, ?_, ?_, ?_, ?_⟩
  · rw [store_get_signed, wkcp_signed, sign_snd_signed]
  · rw [sign_fst_serial]
  · rw [store_get_cy, wkcp_serial, sign_snd_serial]
  · rw [sign_fst_issuer, sign_fst_subject]
    rfl
  · rw [sign_fst_extensions]
    by_cases halt : (alt_names == "") = true
    · simp [caExtensions, halt, applyInOrder, evalExt, addExt]
    · simp [caExtensions, halt, applyInOrder, evalExt, addExt]
  · rw [sign_fst_extensions]
    by_cases halt : (alt_names == "") = true
    · simp [caExtensions, halt, applyInOrder, evalExt, addExt]
    · simp [caExtensions, halt, applyInOrder, evalExt, addExt]

theorem lkcp_pair_signed (n : String) (w : World) (res : Except PyErr (Option (Nat × X509)))
    (w1 : World) (h : Certipy.load_key_cert_pair n w = (res, w1)) : w1.signed = w.signed := by
  have := lkcp_signed n w
  rw [h] at this
  exact this

theorem lkcp_pair_cy (n : String) (w : World) (res : Except PyErr (Option (Nat × X509)))
    (w1 : World) (h : Certipy.load_key_cert_pair n w = (res, w1)) : w1.cy = w.cy := by
  have := lkcp_cy n w
  rw [h] at this
  exact this

theorem lkcp_pair_world (n : String) (w : World) (k : Nat) (c : X509) (w1 : World)
    (h : Certipy.load_key_cert_pair n w = (Except.ok (some (k, c)), w1)) : w1 = w := by
  have h1 : (Certipy.load_key_cert_pair n w).1 = Except.ok (some (k, c)) := by rw [h]
  have h2 := lkcp_of_ok_some n w k c h1
  rw [h] at h2
  exact h2

theorem leaf_extensions_no_ca (c0 : X509) (alt_names : String) :
    ∀ e ∈ applyInOrder c0 (leafExtensions alt_names),
      e.typeName ≠ "basicConstraints" ∧ e.typeName ≠ "keyUsage" := by
  by_cases halt : (alt_names == "") = true
  · simp [leafExtensions, halt, applyInOrder, evalExt, addExt]
  · simp [leafExtensions, halt, applyInOrder, evalExt, addExt]

theorem create_signed_pair_cases (name ca_name alt_names : String) (years : Nat) (w : World) :
    (Certipy.create_signed_pair name ca_name alt_names years w).2.signed = w.signed ∨
    ∃ c : X509,
      (Certipy.create_signed_pair name ca_name alt_names years w).2.signed = w.signed ++ [c] ∧
      c.serial = w.cy.serial ∧
      (Certipy.create_signed_pair name ca_name alt_names years w).2.cy.serial = w.cy.serial + 1 ∧
      (∀ e ∈ c.extensions, e.typeName ≠ "basicConstraints" ∧ e.typeName ≠ "keyUsage") := by
  unfold Certipy.create_signed_pair
  dsimp only [Certipy.create_key_pair, Certipy.create_request]
  split
  next e w1 heq =>
    exact Or.inl (lkcp_pair_signed ca_name { w with keyCtr := w.keyCtr + 1 } _ _ heq)
  next w1 heq =>
    exact Or.inl (lkcp_pair_signed ca_name { w with keyCtr := w.keyCtr + 1 } _ _ heq)
  next cakey cacert w1 heq =>
    have hw1 : w1 = { w with keyCtr := w.keyCtr + 1 } :=
      lkcp_pair_world ca_name { w with keyCtr := w.keyCtr + 1 } _ _ _ heq
    right
    refine ⟨(Certipy.sign ⟨[("CN", name)], w.keyCtr⟩ (SubjSrc.ofCert cacert) cakey
        (0, 60 * 60 * 24 * 365 * (years : Int)) (leafExtensions alt_names) w1).1, ?_, ?_, ?_, ?_⟩
    · split
      next w2 heq2 =>
        have hsg := store_get_signed ca_name
          (Certipy.sign ⟨[("CN", name)], w.keyCtr⟩ (SubjSrc.ofCert cacert) cakey
            (0, 60 * 60 * 24 * 365 * (years : Int)) (leafExtensions alt_names) w1).2
        rw [heq2] at hsg
        rw [hsg, sign_snd_signed, hw1]
      next ca_info w2 heq2 =>
        have hw2 : w2 = (Certipy.sign ⟨[("CN", name)], w.keyCtr⟩ (SubjSrc.ofCert cacert) cakey
            (0, 60 * 60 * 24 * 365 * (years : Int)) (leafExtensions alt_names) w1).2 :=
          store_get_some_world _ _ _ _ heq2
        rw [store_get_signed, wkcp_signed, hw2, sign_snd_signed, hw1]
    · rw [sign_fst_serial, hw1]
    · split
      next w2 heq2 =>
        have hsg := store_get_cy ca_name
          (Certipy.sign ⟨[("CN", name)], w.keyCtr⟩ (SubjSrc.ofCert cacert) cakey
            (0, 60 * 60 * 24 * 365 * (years : Int)) (leafExtensions alt_names) w1).2
        rw [heq2] at hsg
        have : w2.cy.serial =
            (Certipy.sign ⟨[("CN", name)], w.keyCtr⟩ (SubjSrc.ofCert cacert) cakey
              (0, 60 * 60 * 24 * 365 * (years : Int)) (leafExtensions alt_names) w1).2.cy.serial := by
          rw [hsg]
        rw [this, sign_snd_serial, hw1]
      next ca_info w2 heq2 =>
        have hw2 : w2 = (Certipy.sign ⟨[("CN", name)], w.keyCtr⟩ (SubjSrc.ofCert cacert) cakey
            (0, 60 * 60 * 24 * 365 * (years : Int)) (leafExtensions alt_names) w1).2 :=
          store_get_some_world _ _ _ _ heq2
        rw [store_get_cy, wkcp_serial, hw2, sign_snd_serial, hw1]
    · rw [sign_fst_extensions]
      exact leaf_extensions_no_ca _ alt_names

theorem create_signed_pair_of_ok (name ca_name alt_names : String) (years : Nat) (w : World)
    (r : KeyCertPair)
    (h : (Certipy.create_signed_pair name ca_name alt_names years w).1 = Except.ok (some r)) :
    ∃ c : X509,
      (Certipy.create_signed_pair name ca_name alt_names years w).2.signed = w.signed ++ [c] ∧
      c.serial = w.cy.serial ∧
      (Certipy.create_signed_pair name ca_name alt_names years w).2.cy.serial = w.cy.serial + 1 := by
  rcases create_signed_pair_cases name ca_name alt_names years w with hL | ⟨c, h1, h2, h3, _⟩
  · exfalso
    unfold Certipy.create_signed_pair at h hL
    dsimp only [Certipy.create_key_pair, Certipy.create_request] at h hL
    split at h
    · simp at h
    · simp at h
    · rename_i cakey cacert w1 heq
      have hw1 : w1 = { w with keyCtr := w.keyCtr + 1 } :=
        lkcp_pair_world ca_name { w with keyCtr := w.keyCtr + 1 } _ _ _ heq
      split at h
      next w2 heq2 => simp at h
      next ca_info w2 heq2 =>
        have hw2 : w2 = (Certipy.sign ⟨[("CN", name)], w.keyCtr⟩ (SubjSrc.ofCert cacert) cakey
            (0, 60 * 60 * 24 * 365 * (years : Int)) (leafExtensions alt_names) w1).2 :=
          store_get_some_world _ _ _ _ heq2
        simp only [heq, heq2] at hL
        rw [store_get_signed, wkcp_signed, hw2, sign_snd_signed, hw1] at hL
        exact append_cons_ne w.signed _ [] hL
  · exact ⟨c, h1, h2, h3⟩

theorem store_remove_signed (n : String) (w : World) :
    (Certipy.store_remove n w).signed = w.signed := by
  unfold Certipy.store_remove
  cases lookupKey w.cy.certs n <;> rfl

theorem store_remove_serial (n : String) (w : World) :
    (Certipy.store_remove n w).cy.serial = w.cy.serial := by
  unfold Certipy.store_remove
  cases lookupKey w.cy.certs n <;> rfl

theorem runOp_success_newSerials (op : Op) (w : World)
    (h : opSuccess op (runOp op w).1 = true) :
    newSerials w (runOp op w).2 = (if isIssuance op then [w.cy.serial] else []) ∧
    (runOp op w).2.cy.serial = w.cy.serial + (if isIssuance op then 1 else 0) := by
  cases op with
  | createCA n a y =>
    obtain ⟨c, hsig, hser, hser2, _, _, _⟩ := create_ca_analysis n a y w
    refine ⟨?_, ?_⟩
    · show (((Certipy.create_ca n a y w).2.signed).drop w.signed.length).map X509.serial = _
      rw [hsig, List.drop_left]
      simp [isIssuance, hser]
    · show (Certipy.create_ca n a y w).2.cy.serial = _
      simp [isIssuance, hser2]
  | createLeaf n ca a y =>
    obtain ⟨r, hr⟩ : ∃ r, (Certipy.create_signed_pair n ca a y w).1 = Except.ok (some r) := by
      cases hres : (Certipy.create_signed_pair n ca a y w).1 with
      | error e =>
        exfalso
        have : opSuccess (Op.createLeaf n ca a y) (Except.error e) = true := by
          rw [← hres]; exact h
        simp [opSuccess] at this
      | ok v =>
        cases v with
        | none =>
          exfalso
          have : opSuccess (Op.createLeaf n ca a y) (Except.ok none) = true := by
            rw [← hres]; exact h
          simp [opSuccess] at this
        | some r => exact ⟨r, rfl⟩
    obtain ⟨c, hsig, hser, hser2⟩ := create_signed_pair_of_ok n ca a y w r hr
    refine ⟨?_, ?_⟩
    · show (((Certipy.create_signed_pair n ca a y w).2.signed).drop w.signed.length).map X509.serial = _
      rw [hsig, List.drop_left]
      simp [isIssuance, hser]
    · show (Certipy.create_signed_pair n ca a y w).2.cy.serial = _
      simp [isIssuance, hser2]
  | removeRec n =>
    refine ⟨?_, ?_⟩
    · show (((Certipy.store_remove n w).signed).drop w.signed.length).map X509.serial = _
      rw [store_remove_signed]
      simp [isIssuance, List.drop_length]
    · show (Certipy.store_remove n w).cy.serial = _
      simp [isIssuance, store_remove_serial]

theorem traceSerials_range (ops : List Op) : ∀ (w : World) (ss : List Nat),
    traceSerials w ops = some ss →
    ss = List.range' w.cy.serial (issuanceCount ops) := by
  induction ops with
  | nil =>
    intro w ss h
    simp [traceSerials] at h
    simp [← h, issuanceCount, List.range']
  | cons op rest ih =>
    intro w ss h
    unfold traceSerials at h
    dsimp only at h
    split at h
    next hsucc =>
      obtain ⟨ss', hss', hmap⟩ := Option.map_eq_some'.mp h
      obtain ⟨hnew, hser⟩ := runOp_success_newSerials op w hsucc
      have hrest := ih (runOp op w).2 ss' hss'
      subst hmap
      rw [hnew, hrest, hser]
      cases hIss : isIssuance op with
      | true =>
        simp only [hIss, if_pos, issuanceCount]
        rw [Nat.add_comm 1 (issuanceCount rest), List.range'_succ]
        simp
      | false =>
        simp only [hIss, issuanceCount]
        simp
    next hsucc => simp at h

/-- C1: over any trace of operations on one store instance in which
every operation succeeds, the serials of the certificates produced, in
order, form the consecutive run starting at the store's serial: strictly
increasing, each exactly one more than the previous, never repeated,
one per issuance, with interleaved removals assigning nothing. -/
theorem trace_serials_strictly_increasing (w : World) (ops : List Op) (ss : List Nat)
    (h : traceSerials w ops = some ss) :
    ss = List.range' w.cy.serial ss.length ∧
    ss.length = issuanceCount ops ∧
    List.Pairwise (· < ·) ss ∧
    ss.Nodup ∧
    (∀ i : Nat, i + 1 < ss.length → ss[i + 1]? = ss[i]?.map (· + 1)) := by
  have hr := traceSerials_range ops w ss h
  have hlen : ss.length = issuanceCount ops := by
    rw [hr, List.length_range']
  refine ⟨by rw [hlen]; exact hr, hlen, ?_, ?_, ?_⟩
  · rw [hr]
    exact List.pairwise_lt_range' _ _
  · rw [hr]
    exact List.Pairwise.imp (fun hlt => Nat.ne_of_lt hlt) (List.pairwise_lt_range' _ _)
  · intro i hi
    rw [hr] at hi ⊢
    rw [List.length_range'] at hi
    rw [List.getElem?_range' _ _ hi, List.getElem?_range' _ _ (Nat.lt_of_succ_lt hi)]
    simp only [Option.map_some']
    exact congrArg some (by omega)

/-- Witness for C1 at the concrete trace: create CA "root", issue
"svc" against it, remove "root"; the assigned serials are [0, 1]. -/
theorem trace_serials_witness :
    traceSerials W0 opsW0 = some [0, 1] ∧
    (([0, 1] : List Nat) = List.range' W0.cy.serial 2 ∧
     2 = issuanceCount opsW0 ∧
     List.Pairwise (· < ·) ([0, 1] : List Nat) ∧
     ([0, 1] : List Nat).Nodup ∧
     (∀ i : Nat, i + 1 < 2 →
       (([0, 1] : List Nat))[i + 1]? = (([0, 1] : List Nat))[i]?.map (· + 1))) :=
  ⟨by decide, trace_serials_strictly_increasing W0 opsW0 [0, 1] (by decide)⟩

/-- C3: every certificate produced by create_ca is self-signed (issuer
subject equal to its own subject) and carries basicConstraints
CA:true (critical) together with keyUsage keyCertSign, cRLSign; a
create_signed_pair call either aborts before signing (producing no
certificate) or produces exactly one certificate that carries neither a
basicConstraints nor a keyUsage extension. -/
theorem ca_leaf_extension_profile :
    (∀ (w : World) (name alt_names : String) (years : Nat),
      ∃ c : X509,
        (Certipy.create_ca name alt_names years w).2.signed = w.signed ++ [c] ∧
        c.issuer = c.subject ∧
        ExtensionData.mk "basicConstraints" true "CA:true, pathlen:0" none none ∈ c.extensions ∧
        ExtensionData.mk "keyUsage" true "keyCertSign, cRLSign" none none ∈ c.extensions) ∧
    (∀ (w : World) (name ca_name alt_names : String) (years : Nat),
      (Certipy.create_signed_pair name ca_name alt_names years w).2.signed = w.signed ∨
      ∃ c : X509,
        (Certipy.create_signed_pair name ca_name alt_names years w).2.signed = w.signed ++ [c] ∧
        ∀ e ∈ c.extensions, e.typeName ≠ "basicConstraints" ∧ e.typeName ≠ "keyUsage") := by
  constructor
  · intro w name alt yrs
    obtain ⟨c, h1, _, _, h4, h5, h6⟩ := create_ca_analysis name alt yrs w
    exact ⟨c, h1, h4, h5, h6⟩
  · intro w name ca alt yrs
    rcases create_signed_pair_cases name ca alt yrs w with hL | ⟨c, h1, _, _, h4⟩
    · exact Or.inl hL
    · exact Or.inr ⟨c, h1, h4⟩

/-- Witness for C3 at the concrete CA issuance on a fresh world. -/
theorem ca_leaf_extension_profile_witness :
    ∃ c : X509,
      (Certipy.create_ca "root" "" 5 W0).2.signed = W0.signed ++ [c] ∧
      c.issuer = c.subject ∧
      ExtensionData.mk "basicConstraints" true "CA:true, pathlen:0" none none ∈ c.extensions ∧
      ExtensionData.mk "keyUsage" true "keyCertSign, cRLSign" none none ∈ c.extensions :=
  ca_leaf_extension_profile.1 W0 "root" "" 5

theorem store_get_log_ne (n : String) (wbase w' : World) (m : String)
    (hlog : w'.log = wbase.log ++ [m]) :
    (Certipy.store_get n w').2.log ≠ wbase.log := by
  rcases store_get_log_extends n w' with h | h <;> rw [h, hlog]
  · exact append_cons_ne _ _ _
  · rw [List.append_assoc]
    exact append_cons_ne _ _ _

/-- Counterexample to C5 as stated: W5 holds a CA record whose ca_file
is the empty string; issuing a leaf against it succeeds with nothing
reported, yet the new record's ca_file is its own certificate path
rather than the CA record's ca_file. -/
theorem leaf_ca_file_counterexample :
    lookupKey W5.cy.certs "ca" = some recC5 ∧
    (Certipy.create_signed_pair "leaf" "ca" "" 1 W5).1 =
      Except.ok (some ⟨"leaf", "out/leaf", "out/leaf/leaf.key", "out/leaf/leaf.crt",
        "out/leaf/leaf.crt"⟩) ∧
    (Certipy.create_signed_pair "leaf" "ca" "" 1 W5).2.log = W5.log ∧
    ¬ ((⟨"leaf", "out/leaf", "out/leaf/leaf.key", "out/leaf/leaf.crt",
        "out/leaf/leaf.crt"⟩ : KeyCertPair).ca_file = recC5.ca_file) :=
  ⟨by decide, by decide, by decide, by decide⟩

/-- C5 (amended): a successful, unreported create_ca registers a record
whose ca_file equals its own cert_file; a successful, unreported
create_signed_pair against the CA record x registers a record whose
ca_file equals x.ca_file, provided x.ca_file is non-empty (an empty
x.ca_file is replaced by the new record's own cert_file by the
path-defaulting rule, as the counterexample shows). -/
theorem trust_anchor_propagation :
    (∀ (w : World) (name alt_names : String) (years : Nat) (r : KeyCertPair),
      (Certipy.create_ca name alt_names years w).1 = some r →
      (Certipy.create_ca name alt_names years w).2.log = w.log →
      r.ca_file = r.cert_file) ∧
    (∀ (w : World) (name ca_name alt_names : String) (years : Nat) (r x : KeyCertPair),
      lookupKey w.cy.certs ca_name = some x →
      x.ca_file ≠ "" →
      (Certipy.create_signed_pair name ca_name alt_names years w).1 = Except.ok (some r) →
      (Certipy.create_signed_pair name ca_name alt_names years w).2.log = w.log →
      r.ca_file = x.ca_file) := by
  constructor
  · intro w name alt yrs r h hlog
    unfold Certipy.create_ca at h hlog
    dsimp only [Certipy.create_key_pair, Certipy.create_request] at h hlog
    rw [store_get_fst] at h
    cases hw : (Certipy.write_key_cert_pair name w.keyCtr
        (Certipy.sign ⟨[("CN", name)], w.keyCtr⟩ (SubjSrc.ofReq ⟨[("CN", name)], w.keyCtr⟩) w.keyCtr
          (0, 60 * 60 * 24 * 365 * (yrs : Int)) (caExtensions alt)
          { w with keyCtr := w.keyCtr + 1 }).1 ""
        (Certipy.sign ⟨[("CN", name)], w.keyCtr⟩ (SubjSrc.ofReq ⟨[("CN", name)], w.keyCtr⟩) w.keyCtr
          (0, 60 * 60 * 24 * 365 * (yrs : Int)) (caExtensions alt)
          { w with keyCtr := w.keyCtr + 1 }).2).1 with
    | some rr =>
      obtain ⟨hrr, hcerts, _⟩ := wkcp_of_some _ _ _ _ _ _ hw
      rw [hcerts] at h
      subst hrr
      rw [show ((Certipy.sign ⟨[("CN", name)], w.keyCtr⟩
          (SubjSrc.ofReq ⟨[("CN", name)], w.keyCtr⟩) w.keyCtr
          (0, 60 * 60 * 24 * 365 * (yrs : Int)) (caExtensions alt)
          { w with keyCtr := w.keyCtr + 1 }).2.cy.key_cert_pair_for_name
            name "" "" "" "").name = name from rfl] at h
      rw [lookupKey_upsert_self] at h
      have := Option.some.inj h
      rw [← this]
      rfl
    | none =>
      exfalso
      obtain ⟨m, hm, _⟩ := wkcp_of_none _ _ _ _ _ hw
      rw [sign_snd_log] at hm
      exact store_get_log_ne name w _ m hm hlog
  · intro w name ca_name alt yrs r x hx hne h hlog
    unfold Certipy.create_signed_pair at h hlog
    dsimp only [Certipy.create_key_pair, Certipy.create_request] at h hlog
    split at h
    · simp at h
    · simp at h
    · rename_i cakey cacert w1 heq
      have hw1 : w1 = { w with keyCtr := w.keyCtr + 1 } :=
        lkcp_pair_world ca_name { w with keyCtr := w.keyCtr + 1 } _ _ _ heq
      split at h
      next w2 heq2 => simp at h
      next ca_info w2 heq2 =>
        have hca : ca_info = x := by
          have hfst := store_get_fst ca_name
            (Certipy.sign ⟨[("CN", name)], w.keyCtr⟩ (SubjSrc.ofCert cacert) cakey
              (0, 60 * 60 * 24 * 365 * (yrs : Int)) (leafExtensions alt) w1).2
          rw [heq2] at hfst
          rw [sign_snd_certs, hw1] at hfst
          have hfst2 : some ca_info = lookupKey w.cy.certs ca_name := hfst
          exact Option.some.inj (hfst2.trans hx)
        have hw2 : w2 = (Certipy.sign ⟨[("CN", name)], w.keyCtr⟩ (SubjSrc.ofCert cacert) cakey
            (0, 60 * 60 * 24 * 365 * (yrs : Int)) (leafExtensions alt) w1).2 :=
          store_get_some_world _ _ _ _ heq2
        simp only [heq, heq2] at hlog
        have hres : (Certipy.store_get name
            (Certipy.write_key_cert_pair name w.keyCtr
              (Certipy.sign ⟨[("CN", name)], w.keyCtr⟩ (SubjSrc.ofCert cacert) cakey
                (0, 60 * 60 * 24 * 365 * (yrs : Int)) (leafExtensions alt) w1).1
              ca_info.ca_file w2).2).1 = some r := by
          simpa using h
        rw [store_get_fst] at hres
        cases hwk : (Certipy.write_key_cert_pair name w.keyCtr
            (Certipy.sign ⟨[("CN", name)], w.keyCtr⟩ (SubjSrc.ofCert cacert) cakey
              (0, 60 * 60 * 24 * 365 * (yrs : Int)) (leafExtensions alt) w1).1
            ca_info.ca_file w2).1 with
        | some rr =>
          obtain ⟨hrr, hcerts, _⟩ := wkcp_of_some _ _ _ _ _ _ hwk
          rw [hcerts] at hres
          subst hrr
          rw [show ((w2.cy.key_cert_pair_for_name name "" "" "" ca_info.ca_file).name)
              = name from rfl] at hres
          rw [lookupKey_upsert_self] at hres
          have hr := Option.some.inj hres
          rw [← hr, hca]
          have hbe : (x.ca_file == "") = false := by
            exact beq_eq_false_iff_ne.mpr hne
          simp [Certipy.key_cert_pair_for_name, hbe]
        | none =>
          exfalso
          obtain ⟨m, hm, _⟩ := wkcp_of_none _ _ _ _ _ hwk
          have hw2log : w2.log = w.log := by
            rw [hw2, sign_snd_log, hw1]
          rw [hw2log] at hm
          exact store_get_log_ne name w _ m hm hlog

/-- Witness for C5 (amended, leaf half) at the concrete world W1:
the leaf record issued against "root" carries root's ca_file. -/
theorem trust_anchor_witness :
    lookupKey W1.cy.certs "root" = some rootRec ∧
    rootRec.ca_file ≠ "" ∧
    (Certipy.create_signed_pair "svc" "root" "" 5 W1).1 = Except.ok (some svcRec) ∧
    (Certipy.create_signed_pair "svc" "root" "" 5 W1).2.log = W1.log ∧
    svcRec.ca_file = rootRec.ca_file :=
  ⟨by decide, by decide, by decide, by decide,
   trust_anchor_propagation.2 W1 "svc" "root" "" 5 svcRec rootRec
     (by decide) (by decide) (by decide) (by decide)⟩

/-- C6 (code behavior at the failing input): issuing a leaf against the
absent CA name "missing" prints the NotFound report and then terminates
with an uncaught AttributeError (store_get returns None and
load_key_cert_pair dereferences it), rather than returning non-fatally;
no record is registered under the requested leaf name and the store
fields are untouched. -/
theorem missing_ca_raises_attribute_error :
    (Certipy.create_signed_pair "leaf" "missing" "" 5 W0).1 = Except.error PyErr.attributeError ∧
    (Certipy.create_signed_pair "leaf" "missing" "" 5 W0).2.log =
      W0.log ++ ["No certificates found with name missing"] ∧
    (Certipy.create_signed_pair "leaf" "missing" "" 5 W0).2.cy = W0.cy ∧
    lookupKey (Certipy.create_signed_pair "leaf" "missing" "" 5 W0).2.cy.certs "leaf" = none :=
  ⟨by decide, by decide, by decide, by decide⟩
